import Mathlib

/-
  Verification development for the mobi-menu repository.

  The definitions below are a shallow embedding of the persistence layer
  (src/server.js, second server copy: lines 1106-1272 and the route
  handlers at lines 1740-2264), the public renderer's availability
  computation (src/unnamed/part_000, lines 580-585), and the schedule
  evaluator described in the specification (the evaluator itself is not
  present under src/; only its consumer `item.scheduleAvailability` is).

  JavaScript values are modelled as follows: nullable / possibly-absent
  fields become `Option`, machine numbers used as ids and timestamps
  become `Int` (JS ids here are integers produced by `parseInt`),
  fractional settings knobs become `Rat`, and JSON round-tripping through
  `JSON.stringify` / `JSON.parse` is the identity on the structured value
  written (the on-disk file is modelled by the parse result it would
  produce: a well-formed array, a non-array JSON document, an unparsable
  document, or a missing file).  Fallible I/O is driven by an explicit
  environment argument listing, per retry attempt, whether the write/rename
  step throws.
-/

namespace MobiMenu

/-! ## Record store (src/server.js lines 1106-1272) -/

/-- A stored menu record.  Only the `id` field is interpreted by the
persistence layer (`getMaxId` runs `parseInt(data[i].id) || 0` on it);
`payload` stands for all remaining fields of the JSON object, letting
distinct records be distinguished.  `id = none` models a record whose `id`
field is absent or not parseable as a number (`parseInt` gives `NaN`,
and `NaN || 0` is `0`). -/
structure Rec where
  id : Option Int
  payload : Nat
deriving DecidableEq, Repr

/-- The value `parseInt(r.id) || 0` used by `getMaxId` (server.js:1187). -/
def jsIdOf (r : Rec) : Int :=
  r.id.getD 0

/-- `getMaxId` (server.js:1182-1191): a fold keeping the largest
`parseInt(id) || 0` seen, starting from 0. -/
def getMaxId (data : List Rec) : Int :=
  data.foldl (fun maxId r => if jsIdOf r > maxId then jsIdOf r else maxId) 0

/-- What `data.json` currently parses to: the file can be missing
(`ENOENT`), unparsable (`JSON.parse` throws), parse to a non-array
value, or parse to an array of records. -/
inductive Disk where
  | missing
  | corrupt
  | nonArray
  | json (xs : List Rec)
deriving DecidableEq, Repr

/-- The process state touched by the menu-item persistence code: the
on-disk file, the fields of the `cache` object (server.js:1109-1117)
that concern menu data, and the `fileLocks.menuData` flag
(server.js:1194-1197).  `ttl` is `cache.CACHE_TTL` (5000 in development,
10000 in production). -/
structure St where
  disk : Disk
  menuData : Option (List Rec)
  menuDataTimestamp : Int
  maxId : Option Int
  maxIdTimestamp : Int
  ttl : Int
  lockMenuData : Bool
deriving DecidableEq, Repr

/-- Argument passed to `writeMenuData`: the source checks
`Array.isArray(data)` and throws inside the retry loop otherwise. -/
inductive WInput where
  | arr (xs : List Rec)
  | notArr
deriving DecidableEq, Repr

/-- Per-attempt behaviour of the fallible `fs.writeFile` / `fs.rename`
steps inside one iteration of `writeMenuData`'s retry loop. -/
inductive WriteFault where
  | noThrow
  | faulted
deriving DecidableEq, Repr

/-- The retry loop of `writeMenuData` (server.js:1229-1270), one list
entry per remaining attempt (the source fixes `maxRetries = 5`).
If the lock is held the attempt is consumed and the loop retries
(server.js:1230-1234).  Otherwise the lock is acquired; a non-array
argument or a faulted write throws into the `catch` block, which removes
the temp file, releases the lock and retries or gives up
(server.js:1253-1269) - the cache is not touched on that path.  On a
successful rename the cache is invalidated, the max-id cache updated,
the lock released and `true` returned (server.js:1245-1252). -/
def writeMenuDataGo (d : WInput) (now : Int) : List WriteFault → St → Bool × St
  | [], st => (false, st)
  | e :: rest, st =>
    if st.lockMenuData then
      writeMenuDataGo d now rest st
    else
      match d, e with
      | .notArr, _ => writeMenuDataGo d now rest st
      | .arr _, .faulted => writeMenuDataGo d now rest st
      | .arr xs, .noThrow =>
        (true, { st with
                  disk := .json xs
                  menuData := none
                  menuDataTimestamp := 0
                  maxId := some (getMaxId xs)
                  maxIdTimestamp := now })

/-- `writeMenuData` (server.js:1225-1272): five attempts of the retry
loop, then `false`. -/
def writeMenuData (d : WInput) (now : Int) (env : Fin 5 → WriteFault) (st : St) : Bool × St :=
  writeMenuDataGo d now (List.ofFn env) st

/-- The two ways the `try` block of `readMenuData` can throw:
`fs.readFile` reporting a missing file, or `JSON.parse` failing. -/
inductive ReadErr where
  | enoent
  | parseError
deriving DecidableEq, Repr

/-- The `try` block of `readMenuData` (server.js:1148-1164): read the
file, parse it, return `[]` (without caching) when the parse result is
not an array, otherwise repopulate the cache and the max-id cache and
return the parsed array. -/
def readMenuDataTry (st : St) (now : Int) : Except ReadErr (List Rec × St) :=
  match st.disk with
  | .missing => .error .enoent
  | .corrupt => .error .parseError
  | .nonArray => .ok ([], st)
  | .json xs =>
      .ok (xs, { st with
                  menuData := some xs
                  menuDataTimestamp := now
                  maxId := some (getMaxId xs)
                  maxIdTimestamp := now })

/-- `readMenuData` (server.js:1140-1175).  Serves the cache while
`cache.menuData` is non-null and fresh; otherwise runs the `try` block.
The `catch` block (server.js:1165-1174) self-heals a missing file by
writing `[]` (the inner `writeMenuData([])` call consumes `wenv`), and
on any other error returns `cache.menuData || []`.  Every throw of the
body is caught, so the function itself is total. -/
def readMenuData (st : St) (now : Int) (wenv : Fin 5 → WriteFault) : List Rec × St :=
  if st.menuData.isSome && decide (now - st.menuDataTimestamp < st.ttl) then
    (st.menuData.getD [], st)
  else
    match readMenuDataTry st now with
    | .ok r => r
    | .error .enoent => ([], (writeMenuData (.arr []) now wenv st).2)
    | .error .parseError => (st.menuData.getD [], st)

/-! ## Menu route handlers (src/server.js lines 1764-1944) -/

/-- The tail of the `POST /api/menu` handler after the max id `mi` to
use has been determined (server.js:1807-1812): assign `newId = mi + 1`
to the new item, push it onto the records just read, write, and report
the assigned id exactly when the write succeeded. -/
def createFinish (p : Nat) (now : Int) (wenv : Fin 5 → WriteFault)
    (menuData : List Rec) (mi : Int) (st2 : St) : Option Int × St :=
  let wr := writeMenuData (.arr (menuData ++ [⟨some (mi + 1), p⟩])) now wenv st2
  (if wr.1 then some (mi + 1) else none, wr.2)

/-- The id-assignment and append logic of `POST /api/menu`
(server.js:1798-1812), after body validation has succeeded (the
validation code runs before any store access and does not touch the
store, so it is outside this model; `p` stands for the validated
payload).  The handler reads the collection, takes `cache.maxId` when
non-null and fresh (`maxId === null || now - maxIdTimestamp > TTL`
triggers the recompute, server.js:1800-1806) and recomputes
`getMaxId(menuData)` otherwise - updating the max-id cache - then runs
the shared tail `createFinish`. -/
def createStep (p : Nat) (now : Int) (renv wenv : Fin 5 → WriteFault) (st : St) :
    Option Int × St :=
  if (readMenuData st now renv).2.maxId.isSome &&
      !(decide (now - (readMenuData st now renv).2.maxIdTimestamp >
        (readMenuData st now renv).2.ttl)) then
    createFinish p now wenv (readMenuData st now renv).1
      ((readMenuData st now renv).2.maxId.getD 0) (readMenuData st now renv).2
  else
    createFinish p now wenv (readMenuData st now renv).1
      (getMaxId (readMenuData st now renv).1)
      { (readMenuData st now renv).2 with
          maxId := some (getMaxId (readMenuData st now renv).1)
          maxIdTimestamp := now }

/-- The store interaction of `DELETE /api/menu/:id` (server.js:1910-1944):
read, filter out records whose `id` strictly equals the requested id,
report not-found when nothing was removed, otherwise write the filtered
list. -/
def deleteStep (idq : Int) (now : Int) (renv wenv : Fin 5 → WriteFault) (st : St) :
    Bool × St :=
  if ((readMenuData st now renv).1.filter fun r => !(decide (r.id = some idq))).length =
      (readMenuData st now renv).1.length then
    (false, (readMenuData st now renv).2)
  else
    writeMenuData (.arr ((readMenuData st now renv).1.filter fun r => !(decide (r.id = some idq))))
      now wenv (readMenuData st now renv).2

/-- One store operation of a process run: a create, a delete, or a direct
collection write (the update and import handlers both end in
`writeMenuData` of a full array, which this constructor covers). -/
inductive MOp where
  | mcreate (p : Nat) (now : Int) (renv wenv : Fin 5 → WriteFault)
  | mdelete (idq : Int) (now : Int) (renv wenv : Fin 5 → WriteFault)
  | mwrite (xs : List Rec) (now : Int) (wenv : Fin 5 → WriteFault)

/-- Execute one operation, reporting the id it assigned (creates only). -/
def stepOp (st : St) : MOp → St × Option Int
  | .mcreate p now renv wenv =>
      let r := createStep p now renv wenv st
      (r.2, r.1)
  | .mdelete idq now renv wenv => ((deleteStep idq now renv wenv st).2, none)
  | .mwrite xs now wenv => ((writeMenuData (.arr xs) now wenv st).2, none)

/-- Run a sequence of operations. -/
def runOps (st : St) : List MOp → St
  | [] => st
  | op :: rest => runOps (stepOp st op).1 rest

/-- The ids assigned by the creates of a run, in order. -/
def assignedIds (st : St) : List MOp → List Int
  | [] => []
  | op :: rest =>
    let r := stepOp st op
    match r.2 with
    | some i => i :: assignedIds r.1 rest
    | none => assignedIds r.1 rest

/-- Process-start state once the data file exists (the first read
self-heals a missing file to `[]`): empty collection on disk, all cache
fields at their initial values from server.js:1109-1117, lock free. -/
def initSt (ttl : Int) : St :=
  { disk := .json []
    menuData := none
    menuDataTimestamp := 0
    maxId := none
    maxIdTimestamp := 0
    ttl := ttl
    lockMenuData := false }

/-- The records the on-disk file currently holds (empty for a
missing/corrupt/non-array file). -/
def diskList (st : St) : List Rec :=
  match st.disk with
  | .json xs => xs
  | _ => []

/-- All-successful I/O environment. -/
def envOk : Fin 5 → WriteFault := fun _ => .noThrow

/-! ## Settings route (src/server.js lines 1278-1292, 1342-1387, 2171-2235) -/

/-- A normalized filter-category entry as stored by the settings write
path: `{ category, label, enabled }`. -/
structure FilterCategory where
  category : String
  label : String
  enabled : Bool
deriving DecidableEq, Repr

/-- `getDefaultFilterCategories` (server.js:1123-1134). -/
def getDefaultFilterCategories : List FilterCategory :=
  [ ⟨"starters", "Starters", true⟩,
    ⟨"lorem ipsum", "Lorem Ipsum", true⟩,
    ⟨"chicken burgers", "Chicken Burgers", true⟩,
    ⟨"fries", "Fries", true⟩,
    ⟨"dessert", "Dessert", true⟩,
    ⟨"drinks", "Drinks", true⟩,
    ⟨"add ons", "Add Ons", true⟩,
    ⟨"dips", "Dips", true⟩ ]

/-- One raw entry of the request body's `filterCategories` array.
`category` / `label` are `none` when the field is absent (the JS
truthiness test `f.category` also rejects the empty string, kept here as
`some ""`); `enabled` is the result of `Boolean(f.enabled)`. -/
structure FCInput where
  category : Option String
  label : Option String
  enabled : Bool
deriving DecidableEq, Repr

/-- JS truthiness of a possibly-absent string field. -/
def truthyStr : Option String → Bool
  | none => false
  | some s => !(s = "")

/-- `String.prototype.trim()`: strip leading and trailing whitespace
(implemented structurally over the character list so that concrete
inputs evaluate inside the kernel). -/
def jsTrim (s : String) : String :=
  ⟨(((s.toList.dropWhile Char.isWhitespace).reverse.dropWhile Char.isWhitespace).reverse)⟩

/-- `String.prototype.toLowerCase()` on the ASCII range (implemented
structurally over the character list). -/
def jsToLower (s : String) : String :=
  ⟨s.toList.map Char.toLower⟩

/-- The `.filter(f => f && f.category && f.label).map(...)` stage of the
`filterCategories` normalization (server.js:2177-2183), fused into one
`filterMap`: entries that are null or miss a truthy `category`/`label`
are dropped, the rest are trimmed, the category lowercased and `enabled`
coerced to a boolean. -/
def convFilterCategories (fs : List (Option FCInput)) : List FilterCategory :=
  fs.filterMap fun f =>
    match f with
    | none => none
    | some f' =>
      if truthyStr f'.category && truthyStr f'.label then
        some ⟨jsToLower (jsTrim (f'.category.getD "")), jsTrim (f'.label.getD ""), f'.enabled⟩
      else
        none

/-- The final `.filter` stage of the normalization (server.js:2184-2190):
keep entries with non-empty category and label of length at most 100. -/
def keepFilterCategory (f : FilterCategory) : Bool :=
  !(f.category = "") && !(f.label = "") &&
    f.category.length ≤ 100 && f.label.length ≤ 100

/-- `filterCategories` normalization of `PUT /api/settings`
(server.js:2175-2191): defaults when the body field is absent or not an
array, otherwise the two-stage pipeline above. -/
def normalizeFilterCategories (input : Option (List (Option FCInput))) : List FilterCategory :=
  match input with
  | none => getDefaultFilterCategories
  | some fs => (convFilterCategories fs).filter keepFilterCategory

/-- One character of `[0-9A-F]` with the `i` flag. -/
def isHexDigitChar (c : Char) : Bool :=
  (('0' ≤ c) && (c ≤ '9')) || (('a' ≤ c) && (c ≤ 'f')) || (('A' ≤ c) && (c ≤ 'F'))

/-- The test `colorRegex.test(color)` with
`colorRegex = /^#[0-9A-F]{6}$/i` (server.js:2193). -/
def isHexColor (s : String) : Bool :=
  match s.toList with
  | '#' :: rest => rest.length = 6 && rest.all isHexDigitChar
  | _ => false

/-- `validateColor` (server.js:2194-2197): non-string or falsy input
(modelled `none` / `some ""`) falls back to the default, as does any
string failing the regex. -/
def validateColor (color : Option String) (defaultColor : String) : String :=
  match color with
  | none => defaultColor
  | some c => if c = "" then defaultColor else if isHexColor c then c else defaultColor

/-- `clamp` (server.js:2199-2203).  Its argument is the result of
`parseFloat(value)`: `none` models `NaN` (absent or non-numeric input),
`some num` a finite numeric result. -/
def clamp (value : Option Rat) (lo hi defaultValue : Rat) : Rat :=
  match value with
  | none => defaultValue
  | some num => max lo (min hi num)

/-- The relevant fields of the `PUT /api/settings` request body after
JSON parsing.  Numeric knobs carry their `parseFloat` result. -/
structure SettingsBody where
  primaryColor : Option String
  secondaryColor : Option String
  textColor : Option String
  accentColor : Option String
  headingFontSize : Option Rat
  itemNameSize : Option Rat
  descriptionSize : Option Rat
  priceSize : Option Rat
  cardOpacity : Option Rat
  gridGap : Option Rat
  filterCategories : Option (List (Option FCInput))

/-- The normalized settings object: exactly the fixed key set written by
the handler (server.js:2205-2217). -/
structure ValidSettings where
  primaryColor : String
  secondaryColor : String
  textColor : String
  accentColor : String
  headingFontSize : Rat
  itemNameSize : Rat
  descriptionSize : Rat
  priceSize : Rat
  cardOpacity : Rat
  gridGap : Rat
  filterCategories : List FilterCategory
deriving DecidableEq, Repr

/-- The `validSettings` object built by `PUT /api/settings`
(server.js:2205-2217). -/
def buildValidSettings (settings : SettingsBody) : ValidSettings :=
  { primaryColor := validateColor settings.primaryColor "#0d3b2e"
    secondaryColor := validateColor settings.secondaryColor "#1a5c4a"
    textColor := validateColor settings.textColor "#ffffff"
    accentColor := validateColor settings.accentColor "#ffd700"
    headingFontSize := clamp settings.headingFontSize 2 8 4
    itemNameSize := clamp settings.itemNameSize 1 3 1.8
    descriptionSize := clamp settings.descriptionSize 0.7 1.5 0.95
    priceSize := clamp settings.priceSize 1 3 1.5
    cardOpacity := clamp settings.cardOpacity 0 1 0.05
    gridGap := clamp settings.gridGap 0.5 5 2
    filterCategories := normalizeFilterCategories settings.filterCategories }

/-- State touched by the settings persistence code: the `settings.json`
file (as the object it parses to) and the settings fields of the cache
plus the `fileLocks.settings` flag. -/
structure SettingsSt where
  settingsDisk : Option ValidSettings
  settings : Option ValidSettings
  settingsTimestamp : Int
  lockSettings : Bool
deriving DecidableEq, Repr

/-- The retry loop of `writeSettings` (server.js:1346-1385), the exact
analogue of `writeMenuDataGo` for the settings collection (the typed
argument is always an object, so the `typeof data !== "object"` throw
cannot fire here). -/
def writeSettingsGo (data : ValidSettings) : List WriteFault → SettingsSt → Bool × SettingsSt
  | [], st => (false, st)
  | e :: rest, st =>
    if st.lockSettings then
      writeSettingsGo data rest st
    else
      match e with
      | .faulted => writeSettingsGo data rest st
      | .noThrow =>
        (true, { st with
                  settingsDisk := some data
                  settings := none
                  settingsTimestamp := 0 })

/-- `writeSettings` (server.js:1342-1387): five attempts, then `false`. -/
def writeSettings (data : ValidSettings) (env : Fin 5 → WriteFault) (st : SettingsSt) :
    Bool × SettingsSt :=
  writeSettingsGo data (List.ofFn env) st

/-- The two responses the `PUT /api/settings` handler can produce after
authentication: 200 with the stored settings, or 500 when the write
failed.  The handler body contains no validation-rejection branch. -/
inductive SettingsResponse where
  | ok (stored : ValidSettings)
  | serverFailure
deriving DecidableEq, Repr

/-- The `PUT /api/settings` handler body (server.js:2171-2235): build
`validSettings` from the request body, write it, and answer 200 or 500
according to the write result alone. -/
def putSettingsHandler (body : SettingsBody) (env : Fin 5 → WriteFault) (st : SettingsSt) :
    SettingsResponse × SettingsSt :=
  let vs := buildValidSettings body
  let w := writeSettings vs env st
  (if w.1 then .ok vs else .serverFailure, w.2)

/-! ## Public renderer availability (src/unnamed/part_000 lines 580-585) -/

/-- The `item.scheduleAvailability` object the renderer consumes.  Each
field may be absent. -/
structure ScheduleInfo where
  isAvailable : Option Bool
  reason : Option String
  nextAvailable : Option String
deriving DecidableEq, Repr

/-- The fields of a rendered menu item that enter the visibility
computation: the manual `available` flag (absent means available, only a
literal `false` disables) and the attached `scheduleAvailability`
object. -/
structure DisplayItem where
  available : Option Bool
  scheduleAvailability : Option ScheduleInfo
deriving DecidableEq, Repr

/-- `const isAvailable = item.available !== false` (part_000:580). -/
def itemIsAvailable (it : DisplayItem) : Bool :=
  decide (it.available ≠ some false)

/-- `const scheduleInfo = item.scheduleAvailability || {};`
`const isScheduledAvailable = scheduleInfo.isAvailable !== false`
(part_000:583-584): when `scheduleAvailability` is absent the property
read yields `undefined`, which is not `false`. -/
def itemIsScheduledAvailable (it : DisplayItem) : Bool :=
  match it.scheduleAvailability with
  | none => true
  | some si => decide (si.isAvailable ≠ some false)

/-- `const finalAvailable = isAvailable && isScheduledAvailable`
(part_000:585). -/
def finalAvailable (it : DisplayItem) : Bool :=
  itemIsAvailable it && itemIsScheduledAvailable it

/-! ## Server route table (src/server.js lines 1662-2264) -/

/-- HTTP methods relevant to the server's route registrations. -/
inductive Method where
  | get
  | post
  | put
  | patch
  | delete
deriving DecidableEq, Repr

/-- The route registrations of the server (second copy,
server.js:1662-2254), matched the way Express does: literal segments
must coincide, `:id` matches any one segment, and registration order
decides ties.  The result names the matching handler; `none` means no
route matches and the request reaches the final 404 handler
(server.js:2259-2264).  The `express.static` middleware only answers
GET/HEAD requests for existing files and is not consulted for `/api`
paths, so it does not affect the API dispatch modelled here.  No PATCH
route is registered anywhere in the file. -/
def routeMatches (m : Method) (segs : List String) : Option String :=
  match m with
  | .get =>
    match segs with
    | ["api", "auth", "status"] => some "authStatus"
    | ["api", "menu"] => some "menuList"
    | ["api", "menu", "export"] => some "menuExport"
    | ["data.json"] => some "publicData"
    | ["api", "settings"] => some "settingsGet"
    | ["health"] => some "health"
    | _ => none
  | .post =>
    match segs with
    | ["api", "auth", "login"] => some "authLogin"
    | ["api", "auth", "logout"] => some "authLogout"
    | ["api", "menu"] => some "menuCreate"
    | ["api", "menu", "import"] => some "menuImport"
    | _ => none
  | .put =>
    match segs with
    | ["api", "menu", _] => some "menuUpdate"
    | ["api", "settings"] => some "settingsPut"
    | _ => none
  | .delete =>
    match segs with
    | ["api", "menu", _] => some "menuDelete"
    | _ => none
  | .patch => none

/-- The body of the 404 fallback response (server.js:2260-2263). -/
structure JsonError where
  status : Nat
  success : Bool
  error : String
deriving DecidableEq, Repr

/-- Dispatch a request: either the name of the handler that runs, or the
404 fallback response. -/
def serverDispatch (m : Method) (segs : List String) : Sum String JsonError :=
  match routeMatches m segs with
  | some h => .inl h
  | none => .inr ⟨404, false, "Route not found"⟩

/-! ## Schedule evaluator

Modelled from the spec: the repository ships no schedule evaluator under
src/ - the renderer only consumes a precomputed `item.scheduleAvailability`
- so the evaluator below follows spec section 4.1 word by word.  Instants
carry an absolute day index (weekday = index mod 7) and the time of day in
minutes; `"HH:MM"` strings are parsed by `parseHM`; date-range bounds are
day indexes (the spec's `"YYYY-MM-DD"` strings under their chronological
order). -/

/-- Modelled from the spec: the `timeRange` sub-object, `start`/`end` in
`"HH:MM"` (the `end` field is named `stop` here because `end` is a Lean
keyword). -/
structure HMTimeRange where
  start : String
  stop : String
deriving DecidableEq, Repr

/-- Modelled from the spec: the `dateRange` sub-object; either bound may
be absent ("open-ended on either side is treated as unbounded"). -/
structure DateRange where
  start : Option Nat
  stop : Option Nat
deriving DecidableEq, Repr

/-- Modelled from the spec: a schedule - any subset of the three axes
may be present; absent means unconstrained on that axis. -/
structure Schedule where
  days : Option (List Nat)
  timeRange : Option HMTimeRange
  dateRange : Option DateRange
deriving DecidableEq, Repr

/-- Modelled from the spec: an evaluation instant, with weekday derived
from the absolute day index. -/
structure Instant where
  dayIndex : Nat
  minutes : Nat
deriving DecidableEq, Repr

/-- Weekday (0-6) of an instant. -/
def weekdayOf (t : Instant) : Nat :=
  t.dayIndex % 7

/-- Modelled from the spec: the evaluator's result record
`{ isAvailable, reason, nextAvailable }`. -/
structure EvalResult where
  isAvailable : Bool
  reason : Option String
  nextAvailable : Option Instant
deriving DecidableEq, Repr

/-- Numeric value of a decimal digit character. -/
def digitVal (c : Char) : Option Nat :=
  if c.isDigit then some (c.toNat - '0'.toNat) else none

/-- Parse an `"HH:MM"` string to minutes since midnight; `none` on
malformed input (malformed sub-objects leave the axis unconstrained). -/
def parseHM (s : String) : Option Nat :=
  match s.toList with
  | [h1, h2, ':', m1, m2] =>
    match digitVal h1, digitVal h2, digitVal m1, digitVal m2 with
    | some a, some b, some c, some d => some ((a * 10 + b) * 60 + (c * 10 + d))
    | _, _, _, _ => none
  | _ => none

/-- Modelled from the spec: the day constraint is active only when
`days` is present and non-empty. -/
def daysConstraint (s : Schedule) : Option (List Nat) :=
  match s.days with
  | none => none
  | some ds => if ds.isEmpty then none else some ds

/-- Modelled from the spec: the parsed time window, active only when
`timeRange` is present and both bounds parse. -/
def timeWindow (s : Schedule) : Option (Nat × Nat) :=
  match s.timeRange with
  | none => none
  | some tr =>
    match parseHM tr.start, parseHM tr.stop with
    | some a, some b => some (a, b)
    | _, _ => none

/-- Modelled from the spec: the minutes-of-day at which a day's window
opens - `timeRange.start` if present (else midnight). -/
def startMinutes (s : Schedule) : Nat :=
  match timeWindow s with
  | some w => w.1
  | none => 0

/-- First day index at or after `fromDay` whose weekday satisfies the
day constraint (`none` constraint accepts every day); `none` when the
constraint lists no reachable weekday. -/
def nextMatchingDayFrom (ds : Option (List Nat)) (fromDay : Nat) : Option Nat :=
  match ds with
  | none => some fromDay
  | some l =>
    ((List.range 7).find? fun k => decide ((fromDay + k) % 7 ∈ l)).map (fromDay + ·)

/-- Modelled from the spec, section 4.1 step 4: the time-of-day check,
`[start, end]` inclusive of both bounds; failing before the window gives
next-available today at `start`, failing after it rolls to the next
valid day's `start`. -/
def evaluateTimeStep (s : Schedule) (now : Instant) : EvalResult :=
  match timeWindow s with
  | none => ⟨true, none, none⟩
  | some w =>
    if now.minutes < w.1 then
      ⟨false, some "outside hours", some ⟨now.dayIndex, w.1⟩⟩
    else if now.minutes > w.2 then
      ⟨false, some "outside hours",
        (nextMatchingDayFrom (daysConstraint s) (now.dayIndex + 1)).map
          fun d => ⟨d, w.1⟩⟩
    else
      ⟨true, none, none⟩

/-- Modelled from the spec, section 4.1 step 3: the date-range check
(inclusive bounds, open ends unconstrained); before the start the item
resumes at `dateRange.start` combined with the earliest matching
day/time, after the end it is permanently expired.  On success the
time-of-day check follows. -/
def evaluateDateStep (s : Schedule) (now : Instant) : EvalResult :=
  match s.dateRange with
  | some dr =>
    if dr.start.isSome ∧ now.dayIndex < dr.start.getD 0 then
      ⟨false, some "not yet started",
        (nextMatchingDayFrom (daysConstraint s) (dr.start.getD 0)).map
          fun d => ⟨d, startMinutes s⟩⟩
    else if dr.stop.isSome ∧ now.dayIndex > dr.stop.getD 0 then
      ⟨false, some "expired", none⟩
    else
      evaluateTimeStep s now
  | none => evaluateTimeStep s now

/-- Modelled from the spec, section 4.1: evaluate a schedule at an
instant.  Null/empty schedule is always available; then the day check,
the date-range check and the time-of-day check run in that order, the
first failure fixing the reason and next-available estimate; the checks
combine with AND. -/
def evaluate (sched : Option Schedule) (now : Instant) : EvalResult :=
  match sched with
  | none => ⟨true, none, none⟩
  | some s =>
    if (daysConstraint s).isNone && s.timeRange.isNone && s.dateRange.isNone then
      ⟨true, none, none⟩
    else
      match daysConstraint s with
      | some ds =>
        if decide (weekdayOf now ∈ ds) then
          evaluateDateStep s now
        else
          ⟨false, some "not available today",
            (nextMatchingDayFrom (some ds) (now.dayIndex + 1)).map
              fun d => ⟨d, startMinutes s⟩⟩
      | none => evaluateDateStep s now

/-! ## Concrete inputs used by the theorems below -/

/-- A state whose collection lock is held for the whole call. -/
def lockedSt : St :=
  { initSt 5000 with lockMenuData := true }

/-- Cached one-record collection whose file now parses to a non-array,
with the cache TTL elapsed. -/
def staleNonArraySt : St :=
  { disk := .nonArray, menuData := some [⟨some 1, 7⟩], menuDataTimestamp := 0,
    maxId := some 1, maxIdTimestamp := 0, ttl := 5000, lockMenuData := false }

/-- Same cache and clock, but the file fails to parse outright. -/
def staleCorruptSt : St :=
  { staleNonArraySt with disk := .corrupt }

/-- The state `writeMenuData` leaves after successfully writing one
record with id 3. -/
def afterWriteSt : St :=
  (writeMenuData (.arr [⟨some 3, 5⟩]) 100 envOk (initSt 5000)).2

/-- Create, create, delete the item with the larger id, create again. -/
def opsReuse : List MOp :=
  [ .mcreate 10 0 envOk envOk,
    .mcreate 11 1 envOk envOk,
    .mdelete 2 2 envOk envOk,
    .mcreate 12 3 envOk envOk ]

/-- A single direct write putting one record with id 5 on disk. -/
def opsSeed : List MOp :=
  [ .mwrite [⟨some 5, 0⟩] 0 envOk ]

/-- The boundary-case schedule of the spec's testable properties:
`timeRange = ⟨"09:00", "17:00"⟩` and nothing else. -/
def schedNineToFive : Option Schedule :=
  some { days := none, timeRange := some ⟨"09:00", "17:00"⟩, dateRange := none }

/-- A manually disabled item carrying a schedule currently in window. -/
def disabledScheduledItem : DisplayItem :=
  { available := some false, scheduleAvailability := some ⟨some true, none, none⟩ }

/-- A settings body whose `filterCategories` entries collide on the
case-insensitive category key. -/
def dupKeysBody : SettingsBody :=
  { primaryColor := none, secondaryColor := none, textColor := none, accentColor := none,
    headingFontSize := none, itemNameSize := none, descriptionSize := none,
    priceSize := none, cardOpacity := none, gridGap := none,
    filterCategories := some [some ⟨some "A", some "x", true⟩, some ⟨some "a", some "y", true⟩] }

/-- Filter-category inputs with distinct normalized keys. -/
def distinctKeysInput : List (Option FCInput) :=
  [some ⟨some "A", some "x", true⟩, some ⟨some "b", some "y", true⟩]

/-- Fresh settings state. -/
def settingsSt0 : SettingsSt :=
  ⟨none, none, 0, false⟩

/-- The normalized category keys of the accepted raw entries, before the
length/emptiness filter. -/
def inputCategoryKeys (fs : List (Option FCInput)) : List String :=
  (convFilterCategories fs).map fun f => f.category

/-! ## Helper lemmas -/

theorem writeMenuDataGo_false {d : WInput} {now : Int} :
    ∀ (env : List WriteFault) (st st' : St),
      writeMenuDataGo d now env st = (false, st') → st' = st := by
  intro env
  induction env with
  | nil =>
    intro st st' h
    simp only [writeMenuDataGo, Prod.mk.injEq] at h
    exact h.2.symm
  | cons e rest ih =>
    intro st st' h
    unfold writeMenuDataGo at h
    by_cases hl : st.lockMenuData = true
    · rw [if_pos hl] at h
      exact ih st st' h
    · rw [if_neg hl] at h
      cases d with
      | notArr => exact ih st st' h
      | arr xs =>
        cases e with
        | faulted => exact ih st st' h
        | noThrow => simp at h

theorem writeMenuDataGo_true {d : WInput} {now : Int} :
    ∀ (env : List WriteFault) (st st' : St),
      writeMenuDataGo d now env st = (true, st') →
      ∃ xs, d = .arr xs ∧
        st' = { st with
                  disk := .json xs
                  menuData := none
                  menuDataTimestamp := 0
                  maxId := some (getMaxId xs)
                  maxIdTimestamp := now } := by
  intro env
  induction env with
  | nil =>
    intro st st' h
    simp [writeMenuDataGo] at h
  | cons e rest ih =>
    intro st st' h
    unfold writeMenuDataGo at h
    by_cases hl : st.lockMenuData = true
    · rw [if_pos hl] at h
      exact ih st st' h
    · rw [if_neg hl] at h
      cases d with
      | notArr => exact ih st st' h
      | arr xs =>
        cases e with
        | faulted => exact ih st st' h
        | noThrow =>
          simp only [Prod.mk.injEq] at h
          exact ⟨xs, rfl, h.2.symm⟩

theorem writeMenuData_false {d : WInput} {now : Int} {env : Fin 5 → WriteFault}
    {st st' : St} (h : writeMenuData d now env st = (false, st')) : st' = st :=
  writeMenuDataGo_false (List.ofFn env) st st' h

theorem writeMenuData_true {d : WInput} {now : Int} {env : Fin 5 → WriteFault}
    {st st' : St} (h : writeMenuData d now env st = (true, st')) :
    ∃ xs, d = .arr xs ∧
      st' = { st with
                disk := .json xs
                menuData := none
                menuDataTimestamp := 0
                maxId := some (getMaxId xs)
                maxIdTimestamp := now } :=
  writeMenuDataGo_true (List.ofFn env) st st' h

/-! ## Claim theorems -/

/-- C2: the final visibility computed by the renderer is the conjunction
of the manual flag and the schedule result, and a manual
`available = false` forces final visibility to `false` whatever the
`scheduleAvailability` object holds. -/
theorem finalAvailable_is_conj_and_manual_false_wins (it : DisplayItem) :
    finalAvailable it = (itemIsAvailable it && itemIsScheduledAvailable it) ∧
    (it.available = some false → finalAvailable it = false) := by
  refine ⟨rfl, fun h => ?_⟩
  simp [finalAvailable, itemIsAvailable, h]

/-- Witness for C2: a manually disabled item with an in-window schedule
renders as not visible. -/
theorem finalAvailable_is_conj_and_manual_false_wins_witness :
    disabledScheduledItem.available = some false ∧
    finalAvailable disabledScheduledItem = false :=
  ⟨rfl, (finalAvailable_is_conj_and_manual_false_wins disabledScheduledItem).2 rfl⟩

/-- C3: whenever `writeMenuData` reports failure (lock attempts
exhausted, non-array input, or a faulted write/rename on every attempt),
the cached menu data and its timestamp are exactly what they were before
the call; totality of the model over every fault environment reflects
that the function never throws to its caller. -/
theorem writeMenuData_failure_preserves_cache (d : WInput) (now : Int)
    (env : Fin 5 → WriteFault) (st st' : St)
    (h : writeMenuData d now env st = (false, st')) :
    st'.menuData = st.menuData ∧ st'.menuDataTimestamp = st.menuDataTimestamp := by
  have := writeMenuData_false h
  subst this
  exact ⟨rfl, rfl⟩

/-- Witness for C3: with the lock held the call fails after its five
attempts and the state is untouched. -/
theorem writeMenuData_failure_preserves_cache_witness :
    writeMenuData (.arr []) 0 envOk lockedSt = (false, lockedSt) ∧
    (lockedSt.menuData = lockedSt.menuData ∧
      lockedSt.menuDataTimestamp = lockedSt.menuDataTimestamp) :=
  ⟨by decide,
    writeMenuData_failure_preserves_cache (.arr []) 0 envOk lockedSt lockedSt (by decide)⟩

/-- C4: after a successful `writeMenuData xs`, the cache has been
invalidated by the write, so an immediately following `readMenuData`
(at any clock value and any fault environment for its self-heal path)
parses the file just written and returns exactly `xs`. -/
theorem read_after_successful_write_returns_written (xs : List Rec) (now : Int)
    (env : Fin 5 → WriteFault) (st st' : St)
    (h : writeMenuData (.arr xs) now env st = (true, st'))
    (now2 : Int) (wenv2 : Fin 5 → WriteFault) :
    (readMenuData st' now2 wenv2).1 = xs := by
  obtain ⟨ys, hys, hst⟩ := writeMenuData_true h
  cases hys
  subst hst
  simp [readMenuData, readMenuDataTry]

/-- Witness for C4: write one record, read it back. -/
theorem read_after_successful_write_returns_written_witness :
    writeMenuData (.arr [⟨some 3, 5⟩]) 100 envOk (initSt 5000) = (true, afterWriteSt) ∧
    (readMenuData afterWriteSt 101 envOk).1 = [⟨some 3, 5⟩] :=
  ⟨by decide,
    read_after_successful_write_returns_written [⟨some 3, 5⟩] 100 envOk (initSt 5000)
      afterWriteSt (by decide) 101 envOk⟩

/-- C5 counterexample: with a last-good cached value present (but stale)
and an on-disk file that parses to a non-array, `readMenuData` returns
`[]`, not the cached value the claim promises. -/
theorem readMenuData_nonArray_ignores_cache :
    (readMenuData staleNonArraySt 6000 envOk).1 = [] ∧
    staleNonArraySt.menuData = some [⟨some 1, 7⟩] ∧
    (([] : List Rec) ≠ [⟨some 1, 7⟩]) := by
  decide

/-- C5 amended: on a cache miss, a parse failure falls back to
`cache.menuData || []` (the last good cached value when one exists), but
a wrong-shaped (non-array) parse result returns `[]` regardless of any
cached value; neither path throws, since the model is total. -/
theorem readMenuData_corrupt_falls_back_nonArray_empty (st : St) (now : Int)
    (wenv : Fin 5 → WriteFault)
    (h : (st.menuData.isSome && decide (now - st.menuDataTimestamp < st.ttl)) = false) :
    (st.disk = .corrupt → (readMenuData st now wenv).1 = st.menuData.getD []) ∧
    (st.disk = .nonArray → (readMenuData st now wenv).1 = []) := by
  constructor <;> intro hd <;> simp [readMenuData, readMenuDataTry, h, hd]

/-- Witness for the amended C5: stale cache, corrupt file, the cached
record is served. -/
theorem readMenuData_corrupt_falls_back_nonArray_empty_witness :
    ((staleCorruptSt.menuData.isSome &&
        decide ((6000 : Int) - staleCorruptSt.menuDataTimestamp < staleCorruptSt.ttl)) = false) ∧
    (readMenuData staleCorruptSt 6000 envOk).1 = staleCorruptSt.menuData.getD [] :=
  ⟨by decide,
    (readMenuData_corrupt_falls_back_nonArray_empty staleCorruptSt 6000 envOk (by decide)).1 rfl⟩

/-- C9: `readMenuData` is total (the Lean model is a function, mirroring
that every throw site of the source sits inside the `try`/`catch`), and
on every path its result is an array: the cached one, the array parsed
from disk, or `[]`. -/
theorem readMenuData_always_returns_array (st : St) (now : Int)
    (wenv : Fin 5 → WriteFault) :
    (∃ xs, st.menuData = some xs ∧ (readMenuData st now wenv).1 = xs) ∨
    (∃ xs, st.disk = .json xs ∧ (readMenuData st now wenv).1 = xs) ∨
    (readMenuData st now wenv).1 = [] := by
  unfold readMenuData
  split
  · cases hm : st.menuData with
    | none => right; right; simp [hm]
    | some xs => left; exact ⟨xs, rfl, by simp [hm]⟩
  · cases hd : st.disk with
    | missing => right; right; simp [readMenuDataTry, hd]
    | corrupt =>
      cases hm : st.menuData with
      | none => right; right; simp [readMenuDataTry, hd, hm]
      | some xs => left; exact ⟨xs, rfl, by simp [readMenuDataTry, hd, hm]⟩
    | nonArray => right; right; simp [readMenuDataTry, hd]
    | json xs => right; left; exact ⟨xs, rfl, by simp [readMenuDataTry, hd]⟩

/-- C6: boundary behaviour of the schedule evaluator (modelled from the
spec) on `timeRange = 09:00-17:00`: both bounds inclusive, next-available
today at 09:00 before the window, next-available the next day at 09:00
after it. -/
theorem evaluate_nine_to_five_boundaries :
    evaluate schedNineToFive ⟨10, 540⟩ = ⟨true, none, none⟩ ∧
    evaluate schedNineToFive ⟨10, 539⟩ =
      ⟨false, some "outside hours", some ⟨10, 540⟩⟩ ∧
    evaluate schedNineToFive ⟨10, 1020⟩ = ⟨true, none, none⟩ ∧
    evaluate schedNineToFive ⟨10, 1021⟩ =
      ⟨false, some "outside hours", some ⟨11, 540⟩⟩ := by
  decide

/-- C7: the server registers no PATCH route at all, so the client's
`PATCH /api/menu/:id/availability` request falls through to the 404
fallback and no availability-update operation is reachable. -/
theorem patch_availability_route_missing :
    serverDispatch .patch ["api", "menu", "1", "availability"] =
      .inr ⟨404, false, "Route not found"⟩ ∧
    ∀ segs : List String, routeMatches .patch segs = none :=
  ⟨rfl, fun _ => rfl⟩

theorem clamp_bounds (v : Option Rat) (lo hi d : Rat)
    (h1 : lo ≤ d) (h2 : d ≤ hi) (h3 : lo ≤ hi) :
    lo ≤ clamp v lo hi d ∧ clamp v lo hi d ≤ hi := by
  cases v with
  | none => exact ⟨h1, h2⟩
  | some n => exact ⟨le_max_left _ _, max_le h3 (min_le_left _ _)⟩

theorem validateColor_hex (c : Option String) (d : String)
    (hd : isHexColor d = true) : isHexColor (validateColor c d) = true := by
  cases c with
  | none => exact hd
  | some s =>
    by_cases h0 : s = ""
    · simp [validateColor, h0, hd]
    · by_cases hh : isHexColor s = true
      · simp [validateColor, h0, hh]
      · simp [validateColor, h0, hh, hd]

/-- C10: `PUT /api/settings` never answers with a validation error - its
only outcomes are 200 with the normalized object or 500 when the write
fails - and the normalized object always has every numeric knob inside
its fixed range and every color field matching the 6-digit hex pattern
(either the input or the default), regardless of the request body. -/
theorem putSettings_coerces_and_never_rejects (body : SettingsBody)
    (env : Fin 5 → WriteFault) (st : SettingsSt) :
    ((putSettingsHandler body env st).1 = .ok (buildValidSettings body) ∨
      (putSettingsHandler body env st).1 = .serverFailure) ∧
    (2 ≤ (buildValidSettings body).headingFontSize ∧
      (buildValidSettings body).headingFontSize ≤ 8) ∧
    (1 ≤ (buildValidSettings body).itemNameSize ∧
      (buildValidSettings body).itemNameSize ≤ 3) ∧
    (0.7 ≤ (buildValidSettings body).descriptionSize ∧
      (buildValidSettings body).descriptionSize ≤ 1.5) ∧
    (1 ≤ (buildValidSettings body).priceSize ∧
      (buildValidSettings body).priceSize ≤ 3) ∧
    (0 ≤ (buildValidSettings body).cardOpacity ∧
      (buildValidSettings body).cardOpacity ≤ 1) ∧
    (0.5 ≤ (buildValidSettings body).gridGap ∧
      (buildValidSettings body).gridGap ≤ 5) ∧
    isHexColor (buildValidSettings body).primaryColor = true ∧
    isHexColor (buildValidSettings body).secondaryColor = true ∧
    isHexColor (buildValidSettings body).textColor = true ∧
    isHexColor (buildValidSettings body).accentColor = true := by
  refine ⟨?_, ?_, ?_, ?_, ?_, ?_, ?_, ?_, ?_, ?_, ?_⟩
  · unfold putSettingsHandler
    cases hw : (writeSettings (buildValidSettings body) env st).1 <;> simp [hw]
  · exact clamp_bounds _ 2 8 4 (by norm_num) (by norm_num) (by norm_num)
  · exact clamp_bounds _ 1 3 1.8 (by norm_num) (by norm_num) (by norm_num)
  · exact clamp_bounds _ 0.7 1.5 0.95 (by norm_num) (by norm_num) (by norm_num)
  · exact clamp_bounds _ 1 3 1.5 (by norm_num) (by norm_num) (by norm_num)
  · exact clamp_bounds _ 0 1 0.05 (by norm_num) (by norm_num) (by norm_num)
  · exact clamp_bounds _ 0.5 5 2 (by norm_num) (by norm_num) (by norm_num)
  · exact validateColor_hex _ _ (by decide)
  · exact validateColor_hex _ _ (by decide)
  · exact validateColor_hex _ _ (by decide)
  · exact validateColor_hex _ _ (by decide)

/-- C8 counterexample: a body whose entries normalize to the same
category key is accepted, the write succeeds (the update is not
rejected), and the stored `filterCategories` holds two entries with
equal (already lowercased) keys - uniqueness is not enforced. -/
theorem filterCategories_duplicate_keys_stored :
    (putSettingsHandler dupKeysBody envOk settingsSt0).1 ≠ .serverFailure ∧
    ((putSettingsHandler dupKeysBody envOk settingsSt0).2.settingsDisk.map
        fun v => v.filterCategories) = some [⟨"a", "x", true⟩, ⟨"a", "y", true⟩] ∧
    ¬ ((buildValidSettings dupKeysBody).filterCategories.map fun f => f.category).Nodup := by
  refine ⟨?_, rfl, by decide⟩
  have hres : (putSettingsHandler dupKeysBody envOk settingsSt0).1 =
      .ok (buildValidSettings dupKeysBody) := rfl
  rw [hres]
  exact fun h => SettingsResponse.noConfusion h

/-- C8 amended: the write path trims, lowercases and length-filters the
entries but never deduplicates, so uniqueness of the stored category
keys is not an invariant it maintains.  What does hold: the default
list used for absent input has pairwise-distinct keys, and whenever the
normalized keys of the submitted entries are pairwise distinct, so are
the stored ones (the stored list is a sublist of the normalized one). -/
theorem filterCategories_nodup_only_if_input_nodup :
    ((getDefaultFilterCategories.map fun f => f.category).Nodup) ∧
    ∀ fs : List (Option FCInput), (inputCategoryKeys fs).Nodup →
      ((normalizeFilterCategories (some fs)).map fun f => f.category).Nodup := by
  refine ⟨by decide, fun fs h => ?_⟩
  have hsub : List.Sublist ((convFilterCategories fs).filter keepFilterCategory)
      (convFilterCategories fs) := List.filter_sublist _
  exact List.Nodup.sublist (hsub.map fun f => f.category) h

/-- Witness for the amended C8: distinct normalized input keys give
distinct stored keys. -/
theorem filterCategories_nodup_only_if_input_nodup_witness :
    (inputCategoryKeys distinctKeysInput).Nodup ∧
    ((normalizeFilterCategories (some distinctKeysInput)).map fun f => f.category).Nodup :=
  ⟨by decide, filterCategories_nodup_only_if_input_nodup.2 distinctKeysInput (by decide)⟩

/-! ## Max-id lemmas and the store invariant (for claim C1) -/

theorem getMaxId_foldl_ge_init (xs : List Rec) :
    ∀ a : Int, a ≤ xs.foldl (fun m r => if jsIdOf r > m then jsIdOf r else m) a := by
  induction xs with
  | nil => intro a; exact le_refl a
  | cons x tl ih =>
    intro a
    refine le_trans ?_ (ih _)
    show a ≤ if jsIdOf x > a then jsIdOf x else a
    by_cases h : jsIdOf x > a
    · rw [if_pos h]; exact le_of_lt h
    · rw [if_neg h]

theorem mem_le_getMaxId_foldl (xs : List Rec) :
    ∀ (a : Int) (r : Rec), r ∈ xs →
      jsIdOf r ≤ xs.foldl (fun m r' => if jsIdOf r' > m then jsIdOf r' else m) a := by
  induction xs with
  | nil => intro a r h; cases h
  | cons x tl ih =>
    intro a r h
    rcases List.mem_cons.mp h with rfl | h'
    · refine le_trans ?_ (getMaxId_foldl_ge_init tl _)
      show jsIdOf r ≤ if jsIdOf r > a then jsIdOf r else a
      by_cases hx : jsIdOf r > a
      · rw [if_pos hx]
      · rw [if_neg hx]; exact le_of_not_lt hx
    · exact ih _ r h'

theorem mem_le_getMaxId {xs : List Rec} {r : Rec} (h : r ∈ xs) :
    jsIdOf r ≤ getMaxId xs :=
  mem_le_getMaxId_foldl xs 0 r h

/-- Invariant of every reachable store state: the lock is free between
operations, the data file parses to an array, and the cached collection
and cached max-id (when set) agree with the file. -/
def StoreInv (st : St) : Prop :=
  st.lockMenuData = false ∧
  (∃ xs, st.disk = Disk.json xs) ∧
  (∀ xs ys, st.disk = Disk.json xs → st.menuData = some ys → ys = xs) ∧
  (∀ xs m, st.disk = Disk.json xs → st.maxId = some m → m = getMaxId xs)

theorem initSt_inv (ttl : Int) : StoreInv (initSt ttl) := by
  refine ⟨rfl, ⟨[], rfl⟩, ?_, ?_⟩ <;> intro xs m h1 h2 <;> cases h2

theorem StoreInv_write {xs : List Rec} {now : Int} {env : Fin 5 → WriteFault}
    {st : St} {b : Bool} {st' : St} (hinv : StoreInv st)
    (h : writeMenuData (.arr xs) now env st = (b, st')) :
    StoreInv st' ∧ (b = true → st'.disk = .json xs) ∧ (b = false → st' = st) := by
  cases b with
  | false =>
    have := writeMenuData_false h
    subst this
    exact ⟨hinv, fun hb => Bool.noConfusion hb, fun _ => rfl⟩
  | true =>
    obtain ⟨ys, hys, hst⟩ := writeMenuData_true h
    injection hys with hxs
    subst hxs
    subst hst
    refine ⟨⟨hinv.1, ⟨xs, rfl⟩, ?_, ?_⟩, fun _ => rfl, fun hb => Bool.noConfusion hb⟩
    · intro as bs h1 h2
      have h2' : (none : Option (List Rec)) = some bs := h2
      cases h2'
    · intro as m h1 h2
      have h1' : Disk.json xs = Disk.json as := h1
      have h2' : some (getMaxId xs) = some m := h2
      injection h1' with h1'
      injection h2' with h2'
      rw [← h1', ← h2']

theorem StoreInv_read {st : St} {now : Int} {wenv : Fin 5 → WriteFault}
    (hinv : StoreInv st) :
    StoreInv (readMenuData st now wenv).2 ∧
    (readMenuData st now wenv).2.disk = st.disk ∧
    (∀ xs, st.disk = Disk.json xs → (readMenuData st now wenv).1 = xs) := by
  obtain ⟨hlock, ⟨zs, hdisk⟩, hcache, hmax⟩ := hinv
  obtain ⟨dk, md, ts, mx, mts, tl, lk⟩ := st
  have hdisk' : dk = Disk.json zs := hdisk
  subst hdisk'
  unfold readMenuData
  split
  · next hcond =>
    refine ⟨⟨hlock, ⟨zs, rfl⟩, hcache, hmax⟩, rfl, ?_⟩
    intro xs hxs
    have hxs' : Disk.json zs = Disk.json xs := hxs
    injection hxs' with hxs'
    simp only [Bool.and_eq_true] at hcond
    obtain ⟨ys, hys⟩ := Option.isSome_iff_exists.mp hcond.1
    have hyz : ys = zs := hcache zs ys rfl hys
    have hmd : md = some ys := hys
    simp [hmd, hyz, hxs']
  · refine ⟨⟨?_, ⟨zs, rfl⟩, ?_, ?_⟩, rfl, ?_⟩
    · exact hlock
    · intro xs ys h1 h2
      have h1' : Disk.json zs = Disk.json xs := h1
      have h2' : some zs = some ys := h2
      injection h1' with h1'
      injection h2' with h2'
      rw [← h1', ← h2']
    · intro xs m h1 h2
      have h1' : Disk.json zs = Disk.json xs := h1
      have h2' : some (getMaxId zs) = some m := h2
      injection h1' with h1'
      injection h2' with h2'
      rw [← h1', ← h2']
    · intro xs hxs
      have hxs' : Disk.json zs = Disk.json xs := hxs
      injection hxs' with hxs'

theorem createFinish_inv {p : Nat} {now : Int} {wenv : Fin 5 → WriteFault}
    {md : List Rec} {mi : Int} {st2 : St} (hinv2 : StoreInv st2) :
    StoreInv (createFinish p now wenv md mi st2).2 ∧
    ∀ i, (createFinish p now wenv md mi st2).1 = some i → i = mi + 1 := by
  unfold createFinish
  rcases hw : writeMenuData (.arr (md ++ [⟨some (mi + 1), p⟩])) now wenv st2 with ⟨b, st3⟩
  obtain ⟨h3, _, _⟩ := StoreInv_write hinv2 hw
  constructor
  · simpa [hw] using h3
  · intro i hi
    simp only [hw] at hi
    cases b with
    | false => simp at hi
    | true =>
      simp only [if_true] at hi
      have hi' : some (mi + 1) = some i := hi
      injection hi' with hi'
      exact hi'.symm

theorem createStep_inv {p : Nat} {now : Int} {renv wenv : Fin 5 → WriteFault}
    {st : St} (hinv : StoreInv st) :
    StoreInv (createStep p now renv wenv st).2 ∧
    ∀ i xs, (createStep p now renv wenv st).1 = some i → st.disk = Disk.json xs →
      i = getMaxId xs + 1 := by
  obtain ⟨hinv1, hdisk1, hval⟩ := @StoreInv_read st now renv hinv
  obtain ⟨hlock, ⟨zs, hdisk⟩, hcache, hmax⟩ := hinv
  have hv : (readMenuData st now renv).1 = zs := hval zs hdisk
  have hd1 : (readMenuData st now renv).2.disk = Disk.json zs := by rw [hdisk1, hdisk]
  unfold createStep
  by_cases hb : ((readMenuData st now renv).2.maxId.isSome &&
      !(decide (now - (readMenuData st now renv).2.maxIdTimestamp >
        (readMenuData st now renv).2.ttl))) = true
  · rw [if_pos hb]
    obtain ⟨hfin, hfi⟩ := @createFinish_inv p now wenv (readMenuData st now renv).1
      ((readMenuData st now renv).2.maxId.getD 0) (readMenuData st now renv).2 hinv1
    refine ⟨hfin, fun i xs hi hxs => ?_⟩
    have hxz : xs = zs := by
      rw [hdisk] at hxs
      injection hxs with h
      exact h.symm
    obtain ⟨m, hm⟩ := Option.isSome_iff_exists.mp (Bool.and_eq_true _ _ ▸ hb).1
    have hmz : m = getMaxId zs := hinv1.2.2.2 zs m hd1 hm
    have := hfi i hi
    rw [this, hm, hxz]
    simp [hmz]
  · rw [if_neg hb]
    have hinvU : StoreInv
        { (readMenuData st now renv).2 with
            maxId := some (getMaxId (readMenuData st now renv).1)
            maxIdTimestamp := now } := by
      obtain ⟨hl1, ⟨ws, hw1⟩, hc1, _⟩ := hinv1
      refine ⟨hl1, ⟨ws, hw1⟩, hc1, ?_⟩
      intro xs m h1 h2
      have h1' : (readMenuData st now renv).2.disk = Disk.json xs := h1
      rw [hd1] at h1'
      injection h1' with h1'
      have h2' : some (getMaxId (readMenuData st now renv).1) = some m := h2
      injection h2' with h2'
      rw [← h2', hv, h1']
    obtain ⟨hfin, hfi⟩ := @createFinish_inv p now wenv (readMenuData st now renv).1
      (getMaxId (readMenuData st now renv).1)
      { (readMenuData st now renv).2 with
          maxId := some (getMaxId (readMenuData st now renv).1)
          maxIdTimestamp := now } hinvU
    refine ⟨hfin, fun i xs hi hxs => ?_⟩
    have hxz : xs = zs := by
      rw [hdisk] at hxs
      injection hxs with h
      exact h.symm
    have := hfi i hi
    rw [this, hv, hxz]

theorem deleteStep_inv {idq : Int} {now : Int} {renv wenv : Fin 5 → WriteFault}
    {st : St} (hinv : StoreInv st) :
    StoreInv (deleteStep idq now renv wenv st).2 := by
  obtain ⟨hinv1, _, _⟩ := @StoreInv_read st now renv hinv
  unfold deleteStep
  split
  · exact hinv1
  · rcases hw : writeMenuData
        (.arr ((readMenuData st now renv).1.filter fun r => !(decide (r.id = some idq))))
        now wenv (readMenuData st now renv).2 with ⟨b, st3⟩
    obtain ⟨h3, _, _⟩ := StoreInv_write hinv1 hw
    simpa [hw] using h3

theorem stepOp_inv {st : St} (hinv : StoreInv st) (op : MOp) :
    StoreInv (stepOp st op).1 := by
  cases op with
  | mcreate p now renv wenv => exact (createStep_inv hinv).1
  | mdelete idq now renv wenv => exact deleteStep_inv hinv
  | mwrite xs now wenv =>
    rcases hw : writeMenuData (.arr xs) now wenv st with ⟨b, st'⟩
    obtain ⟨h', _, _⟩ := StoreInv_write hinv hw
    simpa [stepOp, hw] using h'

theorem runOps_inv : ∀ (ops : List MOp) (st : St), StoreInv st → StoreInv (runOps st ops) := by
  intro ops
  induction ops with
  | nil => intro st h; exact h
  | cons op rest ih =>
    intro st h
    exact ih _ (stepOp_inv h op)

/-- C1 counterexample: the run create, create, delete id 2, create
(all writes succeeding, all within the cache TTL) assigns the ids
1, 2, 2 - the third create reuses the id 2 that the second create had
already assigned, because deleting the maximum-id item makes the write
path recompute `cache.maxId` downward from the surviving records. -/
theorem create_reassigns_id_of_deleted_max :
    assignedIds (initSt 5000) opsReuse = [1, 2, 2] ∧
    ¬ List.Pairwise (fun a b => a < b) (assignedIds (initSt 5000) opsReuse) := by
  constructor
  · decide
  · decide

/-- C1 amended: each id assigned by a create is strictly greater than
every id present in the stored collection at the moment of creation
(`getMaxId` of the current records, plus one), over every reachable
state - any interleaving of create/delete/write operations with any
fault environments and clock values.  Monotonicity against *previously
assigned* ids does not hold: deleting the item holding the maximum id
lets the next create reuse that id, as the counterexample shows. -/
theorem create_id_gt_all_current_ids (ttl : Int) (ops : List MOp) (p : Nat)
    (now : Int) (renv wenv : Fin 5 → WriteFault) (i : Int) (r : Rec)
    (hi : (createStep p now renv wenv (runOps (initSt ttl) ops)).1 = some i)
    (hr : r ∈ diskList (runOps (initSt ttl) ops)) :
    jsIdOf r < i := by
  have hinv : StoreInv (runOps (initSt ttl) ops) := runOps_inv ops _ (initSt_inv ttl)
  obtain ⟨-, ⟨xs, hdisk⟩, -, -⟩ := hinv
  have hieq : i = getMaxId xs + 1 :=
    (createStep_inv (runOps_inv ops _ (initSt_inv ttl))).2 i xs hi hdisk
  have hmem : r ∈ xs := by
    unfold diskList at hr
    rw [hdisk] at hr
    exact hr
  have hle : jsIdOf r ≤ getMaxId xs := mem_le_getMaxId hmem
  omega

/-- Witness for the amended C1: with a record of id 5 on disk, the next
create assigns 6, which is greater than 5. -/
theorem create_id_gt_all_current_ids_witness :
    (createStep 7 1 envOk envOk (runOps (initSt 5000) opsSeed)).1 = some 6 ∧
    (⟨some 5, 0⟩ : Rec) ∈ diskList (runOps (initSt 5000) opsSeed) ∧
    jsIdOf ⟨some 5, 0⟩ < 6 :=
  ⟨by decide, by decide,
    create_id_gt_all_current_ids 5000 opsSeed 7 1 envOk envOk 6 ⟨some 5, 0⟩
      (by decide) (by decide)⟩

end MobiMenu
